import Mathlib

/-!
Verification development for the `flask_openapi` repository.

The code under `src/flask_openapi/` is shallowly embedded here:

* Python values are modelled by the inductive type `Obj` (Python `None`,
  `bool`, `int`, `str`, `list`, `dict`); Python dicts are association
  lists (`PyDict`) whose insert replaces an existing key in place and
  otherwise appends, matching Python dict insertion-order semantics.
* Exceptions are modelled by the `Err` type together with `Except`-valued
  (or `PyDict × Option Err`-valued) functions.
* The Flask/werkzeug collaborators (routing table, view-function table,
  configuration store) are modelled as explicit record fields; werkzeug's
  `parse_rule` tokenisation of a URL rule is modelled by `parse_rule`.

Each definition mirrors the source function of the same name in
`src/flask_openapi/extension.py`, `src/flask_openapi/utils.py` or
`src/flask_openapi/validators.py` unless its doc comment says otherwise.
-/

set_option autoImplicit false

namespace FlaskOpenapi

/-- A Python value, as used by the flask_openapi code: `None`, booleans,
integers, strings, lists and (insertion-ordered) dicts. -/
inductive Obj where
  | none
  | bool (b : Bool)
  | int (n : Int)
  | str (s : String)
  | list (xs : List Obj)
  | dict (kvs : List (Obj × Obj))

mutual

/-- Structural equality on Python values as a Boolean function
(Python `==` on the value shapes this embedding uses); defined as a
Boolean so that it reduces definitionally on concrete values. -/
def objBeq : Obj → Obj → Bool
  | .none, .none => true
  | .bool a, .bool b => a == b
  | .int a, .int b => a == b
  | .str a, .str b => a == b
  | .list xs, .list ys => objListBeq xs ys
  | .dict xs, .dict ys => objPairsBeq xs ys
  | _, _ => false

/-- `objBeq` pointwise on lists. -/
def objListBeq : List Obj → List Obj → Bool
  | [], [] => true
  | a :: as, b :: bs => objBeq a b && objListBeq as bs
  | _, _ => false

/-- `objBeq` pointwise on key-value pair lists. -/
def objPairsBeq : List (Obj × Obj) → List (Obj × Obj) → Bool
  | [], [] => true
  | (k, v) :: as, (k2, v2) :: bs => objBeq k k2 && objBeq v v2 && objPairsBeq as bs
  | _, _ => false

end

mutual

/-- `objBeq` is sound for propositional equality. -/
theorem objBeq_sound : ∀ (a b : Obj), objBeq a b = true → a = b
  | .none, .none, _ => rfl
  | .none, .bool _, h => nomatch h
  | .none, .int _, h => nomatch h
  | .none, .str _, h => nomatch h
  | .none, .list _, h => nomatch h
  | .none, .dict _, h => nomatch h
  | .bool _, .none, h => nomatch h
  | .bool a, .bool b, h => by
      simp only [objBeq, beq_iff_eq] at h
      rw [h]
  | .bool _, .int _, h => nomatch h
  | .bool _, .str _, h => nomatch h
  | .bool _, .list _, h => nomatch h
  | .bool _, .dict _, h => nomatch h
  | .int _, .none, h => nomatch h
  | .int _, .bool _, h => nomatch h
  | .int a, .int b, h => by
      simp only [objBeq, beq_iff_eq] at h
      rw [h]
  | .int _, .str _, h => nomatch h
  | .int _, .list _, h => nomatch h
  | .int _, .dict _, h => nomatch h
  | .str _, .none, h => nomatch h
  | .str _, .bool _, h => nomatch h
  | .str _, .int _, h => nomatch h
  | .str a, .str b, h => by
      simp only [objBeq, beq_iff_eq] at h
      rw [h]
  | .str _, .list _, h => nomatch h
  | .str _, .dict _, h => nomatch h
  | .list _, .none, h => nomatch h
  | .list _, .bool _, h => nomatch h
  | .list _, .int _, h => nomatch h
  | .list _, .str _, h => nomatch h
  | .list xs, .list ys, h => by
      simp only [objBeq] at h
      rw [objListBeq_sound xs ys h]
  | .list _, .dict _, h => nomatch h
  | .dict _, .none, h => nomatch h
  | .dict _, .bool _, h => nomatch h
  | .dict _, .int _, h => nomatch h
  | .dict _, .str _, h => nomatch h
  | .dict _, .list _, h => nomatch h
  | .dict xs, .dict ys, h => by
      simp only [objBeq] at h
      rw [objPairsBeq_sound xs ys h]

/-- `objListBeq` is sound for propositional equality. -/
theorem objListBeq_sound : ∀ (a b : List Obj), objListBeq a b = true → a = b
  | [], [], _ => rfl
  | [], _ :: _, h => nomatch h
  | _ :: _, [], h => nomatch h
  | x :: xs, y :: ys, h => by
      simp only [objListBeq, Bool.and_eq_true] at h
      rw [objBeq_sound x y h.1, objListBeq_sound xs ys h.2]

/-- `objPairsBeq` is sound for propositional equality. -/
theorem objPairsBeq_sound : ∀ (a b : List (Obj × Obj)), objPairsBeq a b = true → a = b
  | [], [], _ => rfl
  | [], _ :: _, h => nomatch h
  | _ :: _, [], h => nomatch h
  | (k, v) :: xs, (k2, v2) :: ys, h => by
      simp only [objPairsBeq, Bool.and_eq_true] at h
      rw [objBeq_sound k k2 h.1.1, objBeq_sound v v2 h.1.2, objPairsBeq_sound xs ys h.2]

end

mutual

/-- `objBeq` is reflexive. -/
theorem objBeq_refl : ∀ a : Obj, objBeq a a = true
  | .none => rfl
  | .bool b => by simp [objBeq]
  | .int n => by simp [objBeq]
  | .str s => by simp [objBeq]
  | .list xs => by
      simp only [objBeq]
      exact objListBeq_refl xs
  | .dict xs => by
      simp only [objBeq]
      exact objPairsBeq_refl xs

/-- `objListBeq` is reflexive. -/
theorem objListBeq_refl : ∀ a : List Obj, objListBeq a a = true
  | [] => rfl
  | x :: xs => by
      simp only [objListBeq, Bool.and_eq_true]
      exact ⟨objBeq_refl x, objListBeq_refl xs⟩

/-- `objPairsBeq` is reflexive. -/
theorem objPairsBeq_refl : ∀ a : List (Obj × Obj), objPairsBeq a a = true
  | [] => rfl
  | (k, v) :: xs => by
      simp only [objPairsBeq, Bool.and_eq_true]
      exact ⟨⟨objBeq_refl k, objBeq_refl v⟩, objPairsBeq_refl xs⟩

end

instance instDecEqObj : DecidableEq Obj := fun a b =>
  if h : objBeq a b = true then isTrue (objBeq_sound a b h)
  else isFalse (fun he => h (by rw [he]; exact objBeq_refl b))

/-- A Python dict: an insertion-ordered association list of Python values. -/
abbrev PyDict := List (Obj × Obj)

/-- Python dict lookup `d[k]` / `d.get(k)`: value of the first (unique)
entry whose key equals `k`. -/
def dget (d : PyDict) (k : Obj) : Option Obj :=
  match d with
  | [] => Option.none
  | (k', v) :: rest => if k' = k then some v else dget rest k

/-- Python dict assignment `d[k] = v`: replace the value of an existing
key in place, otherwise append the new entry. -/
def dinsert (d : PyDict) (k v : Obj) : PyDict :=
  match d with
  | [] => [(k, v)]
  | (k', v') :: rest => if k' = k then (k', v) :: rest else (k', v') :: dinsert rest k v

/-- Python membership test `k in d` for a dict `d`. -/
def dmemB (d : PyDict) (k : Obj) : Bool :=
  (dget d k).isSome

/-- Python truthiness of a value (`bool(v)`). -/
def pyTruthy : Obj → Bool
  | .none => false
  | .bool b => b
  | .int n => n != 0
  | .str s => s ≠ ""
  | .list xs => !xs.isEmpty
  | .dict kvs => !kvs.isEmpty

/-- The values skipped by `utils.add_optional`: its guard is
`value not in (None, {})`. -/
def optOmitted : Obj → Bool
  | .none => true
  | .dict [] => true
  | _ => false

/-- `utils.add_optional(data, key, value)`: add `value` under `key` unless
it is `None` or the empty dict. -/
def add_optional (data : PyDict) (key : String) (value : Obj) : PyDict :=
  if optOmitted value then data else dinsert data (.str key) value

/-- The exceptions raised (directly or via the Python runtime) by the
embedded code. -/
inductive Err where
  /-- `extension.UnnamedDefinitionError(definition)` -/
  | unnamedDefinition (definition : Obj)
  /-- `extension.UnknownDefinitionError(name)` -/
  | unknownDefinition (name : Obj)
  /-- Python `KeyError(key)` from a plain dict lookup -/
  | keyError (key : Obj)
  /-- Python `AttributeError` (e.g. `.get` on a non-dict) -/
  | attributeError
  /-- Python `TypeError` -/
  | typeError
  /-- `jsonschema.exceptions.ValidationError` from the validator -/
  | schemaValidation
deriving DecidableEq

/-- Insert a string into a `≤`-sorted list of strings (helper for
Python's stable ascending `sorted`). -/
def insertSorted (x : String) : List String → List String
  | [] => [x]
  | y :: ys => if x ≤ y then x :: y :: ys else y :: insertSorted x ys

/-- Python `sorted` on a list of strings (insertion sort, ascending). -/
def sortStrings (l : List String) : List String :=
  l.foldr insertSorted []

/-! ## URL pattern translation (`utils.parse_werkzeug_url`) -/

/-- One token of a werkzeug URL rule, as yielded by
`werkzeug.routing.parse_rule`: either literal text or a placeholder with
an optional converter name (`none` for a bare `<name>` placeholder, for
which `parse_rule` reports the converter as `default`). -/
inductive RuleSegment where
  | static (s : String)
  | var (converter : Option String) (name : String)
deriving DecidableEq

/-- Split the inside of a `<...>` placeholder into converter and variable
name (the `converter:variable` syntax of werkzeug rules). -/
def mkVarSeg (cs : List Char) : RuleSegment :=
  if cs.contains ':' then
    .var (some (String.mk (cs.takeWhile (fun c => c ≠ ':'))))
      (String.mk ((cs.dropWhile (fun c => c ≠ ':')).drop 1))
  else
    .var Option.none (String.mk cs)

/-- Fuel-indexed worker for `parse_rule`. -/
def parseRuleGo : Nat → List Char → List RuleSegment
  | 0, _ => []
  | _, [] => []
  | fuel + 1, cs =>
    let st := cs.takeWhile (fun c => c ≠ '<')
    let rest := cs.dropWhile (fun c => c ≠ '<')
    match rest with
    | [] => [.static (String.mk st)]
    | _ :: r =>
      let v := r.takeWhile (fun c => c ≠ '>')
      let r2 := (r.dropWhile (fun c => c ≠ '>')).drop 1
      (if st.isEmpty then [] else [RuleSegment.static (String.mk st)]) ++
        mkVarSeg v :: parseRuleGo fuel r2

/-- `werkzeug.routing.parse_rule`, modelled for well-formed rules: the
tokenisation of a rule string into static text and `<converter:name>`
placeholders consumed by `utils.parse_werkzeug_url`. -/
def parse_rule (s : String) : List RuleSegment :=
  parseRuleGo s.length s.toList

/-- `utils.WERKZEUG_URL_SWAGGER_TYPE_MAP`. -/
def WERKZEUG_URL_SWAGGER_TYPE_MAP : List (String × String) :=
  [("default", "string"), ("string", "string"), ("int", "integer"), ("float", "number"),
   ("path", "string"), ("any", "string"), ("uuid", "string")]

/-- Lookup in `WERKZEUG_URL_SWAGGER_TYPE_MAP` (`none` models the
`KeyError` raised by Python's `map[typ]`). -/
def typeMapLookup (t : String) : Option String :=
  (WERKZEUG_URL_SWAGGER_TYPE_MAP.find? (fun p => p.1 == t)).map (fun p => p.2)

/-- The path-parameter descriptor built by `utils.parse_werkzeug_url` for
one placeholder. -/
def pathParamObj (name ty : String) : Obj :=
  .dict [(.str "name", .str name), (.str "in", .str "path"),
         (.str "required", .bool true), (.str "type", .str ty)]

/-- Worker for `parse_werkzeug_url`, folding over the parsed segments. -/
def parseUrlGo : List RuleSegment → String → List Obj → Except Err (String × List Obj)
  | [], path, parameters => .ok (path, parameters)
  | .static s :: rest, path, parameters => parseUrlGo rest (path ++ s) parameters
  | .var conv name :: rest, path, parameters =>
    let t := conv.getD "default"
    match typeMapLookup t with
    | some sw =>
      parseUrlGo rest (path ++ "\x7b" ++ name ++ "\x7d") (parameters ++ [pathParamObj name sw])
    | Option.none => .error (.keyError (.str t))

/-- `utils.parse_werkzeug_url` on the segments yielded by `parse_rule`:
the OpenAPI path string plus the ordered path-parameter descriptors; a
converter missing from the type map raises `KeyError`. -/
def parse_werkzeug_url (segments : List RuleSegment) : Except Err (String × List Obj) :=
  parseUrlGo segments "" []

/-! ## Handler metadata and decorators -/

/-- Modelled from the spec: `utils.ref` is imported by `extension.py`
(`from flask_openapi.utils import ref`) but is missing from the `utils.py`
under study; the spec fixes its output as the JSON reference object
mapping `$ref` to `#/<section>/<name>`. -/
def ref (part name : String) : Obj :=
  .dict [(.str "$ref", .str ("#/" ++ part ++ "/" ++ name))]

/-- The ad-hoc attributes the decorators attach to a Flask view function
(`fn.schema`, `fn.responses`, `fn.tags`, `fn.deprecated`), plus the
docstring consulted by `inspect.getdoc`. `none` models an absent
attribute (`AttributeError` on access). -/
structure ViewFunc where
  schema : Option Obj := Option.none
  responses : Option PyDict := Option.none
  tags : Option (List String) := Option.none
  deprecated : Option Obj := Option.none
  doc : Option String := Option.none
deriving DecidableEq

/-- The attribute store of `OpenAPI.schema`'s decorator: `fn.schema =
schema`. The decoration itself is a total function: it never raises. -/
def schemaDecorate (schema : Obj) (fn : ViewFunc) : ViewFunc :=
  { fn with schema := some schema }

/-- `OpenAPI.tag`'s effect on the handler: create `fn.tags` as an empty
set on first use, then union the given names into it. -/
def tagDecorate (ts : List String) (fn : ViewFunc) : ViewFunc :=
  let cur := fn.tags.getD []
  { fn with tags := some (cur ++ ts.filter (fun t => !cur.contains t)) }

/-- `OpenAPI.deprecated`'s attribute store: `fn.deprecated = True`. -/
def deprecatedDecorate (fn : ViewFunc) : ViewFunc :=
  { fn with deprecated := some (.bool true) }

/-- The `status_code` argument of `OpenAPI.response`: an
`http.HTTPStatus` member (an `IntEnum`, carried as its integer value), a
raw integer, or a string. -/
inductive StatusArg where
  | enum (n : Int)
  | int (n : Int)
  | str (s : String)
deriving DecidableEq

/-- Python `str(status_code)` after `OpenAPI.response`'s normalisation. -/
def statusKey : StatusArg → String
  | .enum n => toString n
  | .int n => toString n
  | .str s => s

/-- `OpenAPI.response(status_code, response)` applied to a handler: a
string response becomes a `#/responses/<name>` reference, an
`HTTPStatus` is converted with `int(...)`, and the result is stored in
`fn.responses` under `str(status_code)`. -/
def response_decorate (status_code : StatusArg) (response : Obj) (fn : ViewFunc) : ViewFunc :=
  let response := match response with
    | .str s => ref "responses" s
    | other => other
  let status_code := match status_code with
    | .enum n => StatusArg.int n
    | other => other
  let stored := dinsert (fn.responses.getD []) (.str (statusKey status_code)) response
  { fn with responses := some stored }

/-! ## Registries (`add_definition`, `add_response`, tags) -/

/-- `OpenAPI.add_definition`. The `str`/`Path` branch (loading the
definition from a YAML file) performs file I/O and is not modelled: the
definition is given as the already-loaded object. Returns the updated
registry together with the raised exception, if any; the source raises
before assigning, so on an exception the registry is returned
unchanged. -/
def add_definition (definitions : PyDict) (definition : Obj) (name : Obj) : PyDict × Option Err :=
  let resolved : Except Err Obj :=
    if pyTruthy name then .ok name
    else
      match definition with
      | .dict kvs => .ok ((dget kvs (.str "title")).getD .none)
      | _ => .error Err.attributeError
  match resolved with
  | .error e => (definitions, some e)
  | .ok n =>
    if pyTruthy n then (dinsert definitions n definition, Option.none)
    else (definitions, some (.unnamedDefinition definition))

/-- `OpenAPI.add_response`: plain dict assignment into the response
registry. -/
def add_response (responses : PyDict) (name : String) (response : Obj) : PyDict :=
  dinsert responses (.str name) response

/-- `OpenAPI.tag`'s effect on the shared tag registry `self._tags`
(modelled by its key list; every value is the descriptor mapping `name`
to the tag). -/
def tagRegister (ts : List String) (reg : List String) : List String :=
  ts.foldl (fun r t => if r.contains t then r else r ++ [t]) reg

/-! ## Operation objects (`_extract_schema`, `_process_rule`) -/

/-- `OpenAPI._extract_schema`: an absent `schema` attribute yields
`None`; a dict passes through; any other value is looked up in the
definition registry, yielding a `#/definitions/<name>` reference or
`UnknownDefinitionError`. -/
def extract_schema (definitions : PyDict) (view_func : ViewFunc) : Except Err (Option Obj) :=
  match view_func.schema with
  | Option.none => .ok Option.none
  | some schema =>
    match schema with
    | .dict kvs => .ok (some (.dict kvs))
    | .str s =>
      if dmemB definitions (.str s) then .ok (some (ref "definitions" s))
      else .error (.unknownDefinition (.str s))
    | other =>
      -- a non-dict, non-str schema attribute that is a registered key would
      -- reach `ref('definitions', schema)` and fail there; unreachable via the
      -- documented API, which passes dicts or strings
      if dmemB definitions other then .error Err.typeError
      else .error (.unknownDefinition other)

/-- `OpenAPI._process_rule`: the per-method operation object, merging the
body parameter, attached responses, docstring description, deprecation
flag and sorted tags. -/
def process_rule (definitions : PyDict) (view_func : ViewFunc) : Except Err PyDict :=
  match extract_schema definitions view_func with
  | .error e => .error e
  | .ok schema =>
    let path : PyDict := []
    let path := match schema with
      | some s =>
        if pyTruthy s then
          dinsert path (.str "parameters")
            (.list [.dict [(.str "in", .str "body"), (.str "name", .str "payload"),
                           (.str "schema", s)]])
        else path
      | Option.none => path
    let path := match view_func.responses with
      | some r => dinsert path (.str "responses") (.dict r)
      | Option.none => path
    let path := add_optional path "description"
      (match view_func.doc with | some d => .str d | Option.none => .none)
    let path := add_optional path "deprecated" (view_func.deprecated.getD .none)
    let path := match view_func.tags with
      | some ts => dinsert path (.str "tags") (.list ((sortStrings ts).map Obj.str))
      | Option.none => path
    .ok path

/-! ## Application state and document assembly -/

/-- One rule of the Flask/werkzeug routing table. -/
structure Rule where
  rule : String
  endpoint : String
  methods : List String
deriving DecidableEq

/-- The configuration options read by the extension (`OPENAPI_*` plus
Flask's `SERVER_NAME` and `PREFERRED_URL_SCHEME`), with the defaults
installed by `init_app` and Flask. -/
structure Config where
  base_path : Obj := .none
  info_title : Obj := .none
  info_description : Obj := .none
  info_terms_of_service : Obj := .none
  info_contact : Obj := .none
  info_license : Obj := .none
  info_version : Obj := .none
  show_host : Obj := .bool false
  server_name : Obj := .none
  preferred_url_scheme : Obj := .str "http"
deriving DecidableEq

/-- The state the `OpenAPI` extension reads at assembly time: the Flask
app (name, config, routing table, view functions) and the extension's
own registries. -/
structure AppState where
  name : String := "app"
  config : Config := {}
  rules : List Rule := []
  view_functions : List (String × ViewFunc) := []
  definitions : PyDict := []
  responses : PyDict := []
  tags : List String := []

/-- `self.app.view_functions[endpoint]`. -/
def lookupVf (l : List (String × ViewFunc)) (k : String) : Option ViewFunc :=
  (l.find? (fun p => p.1 == k)).map (fun p => p.2)

/-- Python `method.lower()` (ASCII lowercasing of an HTTP method name),
written over the character list so that it reduces on concrete
strings. -/
def strToLower (s : String) : String :=
  String.mk (s.data.map Char.toLower)

/-- The inner loop of `OpenAPI.paths` over one rule's methods: `HEAD` and
`OPTIONS` are skipped, every other method stores the operation object
under its lowercased name. -/
def methodsGo (definitions : PyDict) (view_func : ViewFunc) :
    List String → PyDict → Except Err PyDict
  | [], sub => .ok sub
  | m :: ms, sub =>
    if m = "HEAD" ∨ m = "OPTIONS" then methodsGo definitions view_func ms sub
    else
      match process_rule definitions view_func with
      | .error e => .error e
      | .ok op => methodsGo definitions view_func ms (dinsert sub (.str (strToLower m)) (.dict op))

/-- The existing entry for a path key, or a fresh empty dict
(`paths.setdefault(url, dict())` as read by `OpenAPI.paths`; every
stored value is a dict). -/
def subFor (paths : PyDict) (url : String) : PyDict :=
  match dget paths (.str url) with
  | some (.dict kvs) => kvs
  | _ => []

/-- The loop of `OpenAPI.paths` over the routing table: skip the `static`
endpoint, translate the rule, store the non-empty parameter list and the
per-method operation objects into the entry for the translated path. -/
def pathsGo (app : AppState) : List Rule → PyDict → Except Err PyDict
  | [], paths => .ok paths
  | r :: rs, paths =>
    if r.endpoint = "static" then pathsGo app rs paths
    else
      match parse_werkzeug_url (parse_rule r.rule) with
      | .error e => .error e
      | .ok (url, parameters) =>
        match lookupVf app.view_functions r.endpoint with
        | Option.none => .error (.keyError (.str r.endpoint))
        | some vf =>
          let sub := subFor paths url
          let sub := if parameters.isEmpty then sub
            else dinsert sub (.str "parameters") (.list parameters)
          match methodsGo app.definitions vf r.methods sub with
          | .error e => .error e
          | .ok sub2 => pathsGo app rs (dinsert paths (.str url) (.dict sub2))

/-- The `OpenAPI.paths` property. -/
def pathsBuild (app : AppState) : Except Err PyDict :=
  pathsGo app app.rules []

/-- The `OpenAPI.host` property: the configured server name, only when
`OPENAPI_SHOW_HOST` is truthy. -/
def hostProp (app : AppState) : Obj :=
  if pyTruthy app.config.show_host then app.config.server_name else .none

/-- The `OpenAPI.schemes` property: a singleton list of the preferred URL
scheme, when that is truthy. -/
def schemesProp (app : AppState) : Obj :=
  if pyTruthy app.config.preferred_url_scheme then .list [app.config.preferred_url_scheme]
  else .none

/-- The `OpenAPI.definitions` property: the registry, or `None` when it
is empty. -/
def definitionsProp (app : AppState) : Obj :=
  if app.definitions.isEmpty then .none else .dict app.definitions

/-- The `OpenAPI.responses` property: the registry, or `None` when it is
empty. -/
def responsesProp (app : AppState) : Obj :=
  if app.responses.isEmpty then .none else .dict app.responses

/-- The `OpenAPI.tags` property: the tag descriptors sorted by name, or
`None` when no tag was registered. -/
def tagsProp (app : AppState) : Obj :=
  if app.tags.isEmpty then .none
  else .list ((sortStrings app.tags).map (fun t => .dict [(.str "name", .str t)]))

/-! ## Contact-string parsing (`utils.AUTHOR_REGEX`, `utils.parse_contact_string`)

`AUTHOR_REGEX` is embedded as an explicit backtracking matcher
specialised to its fixed shape

  anchored-start, whitespace-star (greedy),
  optional lazy-plus group over the class excluding lt and lparen (name),
  whitespace-star, optional lt-delimited lazy-plus group over the class
  excluding gt and lparen (email), whitespace-star, optional
  paren-delimited lazy-plus group over the class excluding rparen (url),
  whitespace-star, anchored-end.

`authorParses` lists every way the pattern can match, in exactly the
backtracking engine's preference order (greedy star: longest first; lazy
plus: shortest first; optional group: participating first), so its head
is the match Python's `re.match` returns, with the three named groups. -/

/-- Python regex `\s` on ASCII text (the whitespace characters). -/
def isPySpace (c : Char) : Bool :=
  c = ' ' || c = '\t' || c = '\n' || c = '\r' || c = '\x0b' || c = '\x0c'

/-- The suffixes a greedy `\s*` leaves, longest consumption first. -/
def wsCands (cs : List Char) : List (List Char) :=
  let n := (cs.takeWhile isPySpace).length
  (List.range (n + 1)).reverse.map (fun k => cs.drop k)

/-- The `(prefix, suffix)` splits a lazy one-or-more over the class `p`
can produce, shortest prefix first. -/
def lazyCands (p : Char → Bool) (cs : List Char) : List (String × List Char) :=
  let n := (cs.takeWhile p).length
  (List.range n).map (fun i => (String.mk (cs.take (i + 1)), cs.drop (i + 1)))

/-- Lift the candidates of a group body to the candidates of the
optional group around it: participate first, then skip. -/
def optCands (cands : List (String × List Char)) (cs : List Char) :
    List (Option String × List Char) :=
  cands.map (fun x => (some x.1, x.2)) ++ [(Option.none, cs)]

/-- The candidates of a delimited group: an opening literal, a lazy
one-or-more over `p`, and a closing literal. -/
def bracketCands (lc rc : Char) (p : Char → Bool) (cs : List Char) :
    List (String × List Char) :=
  match cs with
  | [] => []
  | c :: rest =>
    if c = lc then
      (lazyCands p rest).filterMap (fun x =>
        match x.2 with
        | c2 :: r3 => if c2 = rc then some (x.1, r3) else Option.none
        | [] => Option.none)
    else []

/-- The name group's character class: everything but lt and lparen. -/
def nameClass (c : Char) : Bool := c ≠ '<' && c ≠ '('

/-- The email group's character class: everything but gt and lparen. -/
def emailClass (c : Char) : Bool := c ≠ '>' && c ≠ '('

/-- The url group's character class: everything but rparen. -/
def urlClass (c : Char) : Bool := c ≠ ')'

/-- All matches of `AUTHOR_REGEX` against the whole input, as
`(name, email, url)` group values, in backtracking preference order. -/
def authorParses (cs : List Char) : List (Option String × Option String × Option String) :=
  (wsCands cs).flatMap fun r1 =>
  (optCands (lazyCands nameClass r1) r1).flatMap fun nm =>
  (wsCands nm.2).flatMap fun r3 =>
  (optCands (bracketCands '<' '>' emailClass r3) r3).flatMap fun em =>
  (wsCands em.2).flatMap fun r5 =>
  (optCands (bracketCands '(' ')' urlClass r5) r5).flatMap fun ur =>
  (wsCands ur.2).flatMap fun r7 =>
  if r7 = [] then [(nm.1, em.1, ur.1)] else []

/-- `utils.parse_contact_string`: match the contact string against
`AUTHOR_REGEX` and collect the groups that participated; an overall
non-match leaves the result empty. -/
def parse_contact_string (s : String) : PyDict :=
  match (authorParses s.toList).head? with
  | Option.none => []
  | some (nm, em, ur) =>
    let result := add_optional [] "name"
      (match nm with | some x => .str x | Option.none => .none)
    let result := add_optional result "email"
      (match em with | some x => .str x | Option.none => .none)
    add_optional result "url"
      (match ur with | some x => .str x | Option.none => .none)

/-! ## The info object and the top-level swagger object -/

/-- The `OpenAPI.info` property: title (falling back to the app name),
version, and the optional description, terms of service, contact
(parsed when configured as a string) and license. -/
def infoBuild (app : AppState) : PyDict :=
  let title := if pyTruthy app.config.info_title then app.config.info_title else .str app.name
  let data : PyDict := [(.str "title", title), (.str "version", app.config.info_version)]
  let data := add_optional data "description" app.config.info_description
  let data := add_optional data "termsOfService" app.config.info_terms_of_service
  let contact := match app.config.info_contact with
    | .str s => Obj.dict (parse_contact_string s)
    | other => other
  let data := add_optional data "contact" contact
  add_optional data "license" app.config.info_license

/-- The `OpenAPI.swagger` property: the top-level swagger object built
fresh from the current application state. -/
def swaggerBuild (app : AppState) : Except Err PyDict :=
  match pathsBuild app with
  | .error e => .error e
  | .ok ps =>
    let data : PyDict := [(.str "swagger", .str "2.0"), (.str "info", .dict (infoBuild app)),
                          (.str "paths", .dict ps)]
    let data := add_optional data "host" (hostProp app)
    let data := add_optional data "basePath" app.config.base_path
    let data := add_optional data "schemes" (schemesProp app)
    let data := add_optional data "paths" (.dict ps)
    let data := add_optional data "definitions" (definitionsProp app)
    let data := add_optional data "responses" (responsesProp app)
    let data := add_optional data "tags" (tagsProp app)
    .ok data

/-! ## The validation gate (`OpenAPI.schema`'s wrapper, `validators.py`) -/

/-- Dict lookup on a Python value (`o.get(k)` for dicts, else absent). -/
def dgetS (o : Obj) (k : String) : Option Obj :=
  match o with
  | .dict kvs => dget kvs (.str k)
  | _ => Option.none

/-- Modelled from the spec: the default validator
`validators.OpenAPISchemaValidator` is `extend(Draft4Validator, {})`,
delegating entirely to the external `jsonschema` library; its Draft-4
semantics is modelled here for the `type` (object) and `required`
keywords, which is the fragment the specification's stated examples
exercise. -/
def draft4Validate (schema payload : Obj) : Except Err Unit :=
  let typeOk := match dgetS schema "type" with
    | some (.str "object") => (match payload with | .dict _ => true | _ => false)
    | _ => true
  if !typeOk then .error .schemaValidation
  else
    match payload, dgetS schema "required" with
    | .dict kvs, some (.list reqs) =>
      if reqs.all (fun r => dmemB kvs r) then .ok () else .error .schemaValidation
    | _, _ => .ok ()

/-- One invocation of the wrapper installed by `OpenAPI.schema`: re-read
the stored schema, resolve a string against the definition registry with
a plain dict lookup (`self._definitions[schema]`, raising `KeyError` on
a missing name), build a validator via the validator-getter hook,
validate the request JSON, and only then delegate to the original
handler. The handler is a state transformer `σ → σ × Obj` so that "the
handler never ran" is expressible. -/
def schemaGateRun {σ : Type} (validate : Obj → Obj → Except Err Unit) (definitions : PyDict)
    (storedSchema : Obj) (fn : σ → σ × Obj) (requestJson : Obj) (st : σ) :
    Except Err (σ × Obj) :=
  let resolved : Except Err Obj :=
    match storedSchema with
    | .str s =>
      match dget definitions (.str s) with
      | some v => .ok v
      | Option.none => .error (Err.keyError (.str s))
    | other => .ok other
  match resolved with
  | .error e => .error e
  | .ok schema =>
    match validate schema requestJson with
    | .error e => .error e
    | .ok _ => .ok (fn st)

/-! ## Helper predicates for the stated properties -/

/-- What `add_optional` leaves visible under a key: the value when it is
neither `None` nor the empty dict, nothing otherwise. -/
def addOptGet (v : Obj) : Option Obj :=
  if optOmitted v then Option.none else some v

/-- A path entry never binds `parameters` to anything but a non-empty
list. -/
def entryParamOk (e : PyDict) : Prop :=
  ∀ v, dget e (.str "parameters") = some v → ∃ l, v = Obj.list l ∧ l ≠ []

/-- Every entry of a paths object satisfies `entryParamOk`. -/
def pathsParamOk (p : PyDict) : Prop :=
  ∀ u e, dget p u = some (.dict e) → entryParamOk e

/-- No HTTP method of any rule lowercases to the literal key
`parameters` (true of all HTTP verbs). -/
def methodsParamSafe (app : AppState) : Prop :=
  ∀ r ∈ app.rules, ∀ m ∈ r.methods, strToLower m ≠ "parameters"

/-- The schema of the specification's validation example: an object with
required member `spam`. -/
def requiredSpamSchema : Obj :=
  .dict [(.str "type", .str "object"), (.str "required", .list [.str "spam"])]

/-- A one-rule application: a single `POST /spam` route bound to the
endpoint `h` whose view function is given, over the given definition
registry. -/
def oneRouteApp (cfg : Config) (defs : PyDict) (vf : ViewFunc) : AppState :=
  { config := cfg, rules := [⟨"/spam", "h", ["POST"]⟩],
    view_functions := [("h", vf)], definitions := defs }

/-- A two-rule application over the given view functions and definition
registry. -/
def twoRouteApp (r1 r2 : Rule) (vfs : List (String × ViewFunc)) (defs : PyDict) : AppState :=
  { rules := [r1, r2], view_functions := vfs, definitions := defs }

instance exceptDecEq {ε α : Type} [DecidableEq ε] [DecidableEq α] : DecidableEq (Except ε α)
  | .ok a, .ok b =>
      match decEq a b with
      | isTrue h => isTrue (by rw [h])
      | isFalse h => isFalse (by intro hh; injection hh; contradiction)
  | .ok _, .error _ => isFalse (by intro h; cases h)
  | .error _, .ok _ => isFalse (by intro h; cases h)
  | .error a, .error b =>
      match decEq a b with
      | isTrue h => isTrue (by rw [h])
      | isFalse h => isFalse (by intro hh; injection hh; contradiction)

/-! ## Further dictionary lemmas -/

theorem dget_dinsert_self (d : PyDict) (k v : Obj) :
    dget (dinsert d k v) k = some v := by
  induction d with
  | nil => simp [dinsert, dget]
  | cons hd tl ih =>
    obtain ⟨k', v'⟩ := hd
    by_cases h : k' = k <;> simp [dinsert, dget, h, ih]

theorem dget_dinsert_ne (d : PyDict) (k v k' : Obj) (h : k' ≠ k) :
    dget (dinsert d k v) k' = dget d k' := by
  have hne : k ≠ k' := fun hh => h hh.symm
  induction d with
  | nil => simp [dinsert, dget, hne]
  | cons hd tl ih =>
    obtain ⟨k₀, v₀⟩ := hd
    by_cases h0 : k₀ = k
    · subst h0
      simp [dinsert, dget, hne]
    · by_cases h1 : k₀ = k' <;> simp [dinsert, dget, h0, h1, h, ih]

theorem dget_add_optional_self (d : PyDict) (key : String) (v : Obj) :
    dget (add_optional d key v) (.str key) =
      if optOmitted v then dget d (.str key) else some v := by
  by_cases h : optOmitted v <;> simp [add_optional, h, dget_dinsert_self]

theorem dget_add_optional_ne (d : PyDict) (key : String) (v : Obj) (k' : Obj)
    (h : k' ≠ Obj.str key) :
    dget (add_optional d key v) k' = dget d k' := by
  by_cases h0 : optOmitted v <;> simp [add_optional, h0, dget_dinsert_ne _ _ _ _ h]

theorem insertSorted_ne_nil (x : String) (l : List String) :
    insertSorted x l ≠ [] := by
  cases l with
  | nil => simp [insertSorted]
  | cons y ys =>
    by_cases h : x ≤ y <;> simp [insertSorted, h]

theorem sortStrings_ne_nil (x : String) (l : List String) :
    sortStrings (x :: l) ≠ [] := by
  simp only [sortStrings, List.foldr]
  exact insertSorted_ne_nil _ _

theorem dinsert_dinsert_self (d : PyDict) (k v1 v2 : Obj) :
    dinsert (dinsert d k v1) k v2 = dinsert d k v2 := by
  induction d with
  | nil => simp [dinsert]
  | cons hd tl ih =>
    obtain ⟨k0, v0⟩ := hd
    by_cases h : k0 = k <;> simp [dinsert, h, ih]

theorem dget_add_optional_cases (d : PyDict) (key : String) (x : Obj) (k v : Obj)
    (h : dget (add_optional d key x) k = some v) :
    (v = x ∧ optOmitted x = false) ∨ dget d k = some v := by
  by_cases hom : optOmitted x
  · right
    simpa [add_optional, hom] using h
  · by_cases hk : k = Obj.str key
    · left
      subst hk
      rw [add_optional, if_neg (by simp [hom]), dget_dinsert_self] at h
      exact ⟨by injection h with h'; exact h'.symm, by simp [hom]⟩
    · right
      rwa [add_optional, if_neg (by simp [hom]), dget_dinsert_ne _ _ _ _ hk] at h

/-! ## Claim theorems -/

theorem typeMapLookup_eq_none (t : String)
    (h : ¬ t ∈ (["default", "string", "int", "float", "path", "any", "uuid"] : List String)) :
    typeMapLookup t = Option.none := by
  simp only [List.mem_cons, List.not_mem_nil, or_false, not_or] at h
  obtain ⟨h1, h2, h3, h4, h5, h6, h7⟩ := h
  have e1 : ("default" == t) = false := beq_eq_false_iff_ne.mpr (Ne.symm h1)
  have e2 : ("string" == t) = false := beq_eq_false_iff_ne.mpr (Ne.symm h2)
  have e3 : ("int" == t) = false := beq_eq_false_iff_ne.mpr (Ne.symm h3)
  have e4 : ("float" == t) = false := beq_eq_false_iff_ne.mpr (Ne.symm h4)
  have e5 : ("path" == t) = false := beq_eq_false_iff_ne.mpr (Ne.symm h5)
  have e6 : ("any" == t) = false := beq_eq_false_iff_ne.mpr (Ne.symm h6)
  have e7 : ("uuid" == t) = false := beq_eq_false_iff_ne.mpr (Ne.symm h7)
  simp [typeMapLookup, WERKZEUG_URL_SWAGGER_TYPE_MAP, List.find?, e1, e2, e3, e4, e5, e6, e7]

theorem parseUrlGo_unknown (segs : List RuleSegment) (t nm : String)
    (hunk : typeMapLookup t = Option.none) :
    ∀ path params, RuleSegment.var (some t) nm ∈ segs →
      ∃ t', parseUrlGo segs path params = .error (.keyError (.str t')) ∧
        typeMapLookup t' = Option.none := by
  induction segs with
  | nil =>
    intro path params hmem
    cases hmem
  | cons hd tl ih =>
    intro path params hmem
    cases hd with
    | static s =>
      have hm : RuleSegment.var (some t) nm ∈ tl := by
        cases hmem with
        | tail _ h => exact h
      simpa [parseUrlGo] using ih (path ++ s) params hm
    | var cv n =>
      cases hres : typeMapLookup (cv.getD "default") with
      | none => exact ⟨cv.getD "default", by simp [parseUrlGo, hres], hres⟩
      | some sw =>
        have hm : RuleSegment.var (some t) nm ∈ tl := by
          cases hmem with
          | head =>
            simp only [Option.getD] at hres
            rw [hunk] at hres
            cases hres
          | tail _ h => exact h
        simpa [parseUrlGo, hres] using
          ih (path ++ "\x7b" ++ n ++ "\x7d") (params ++ [pathParamObj n sw]) hm

/-- C3 (amended): a placeholder whose explicit converter token is outside
the keys of `WERKZEUG_URL_SWAGGER_TYPE_MAP` (the claim's six tokens plus
`default`) makes `parse_werkzeug_url` fail with the `KeyError`-borne
unknown-parameter-type condition instead of silently defaulting the
parameter type to string. -/
theorem c3_unknown_type_fails (segs : List RuleSegment) (t nm : String)
    (hmem : RuleSegment.var (some t) nm ∈ segs)
    (h : ¬ t ∈ (["default", "string", "int", "float", "path", "any", "uuid"] : List String)) :
    ∃ t', parse_werkzeug_url segs = .error (.keyError (.str t')) ∧
      typeMapLookup t' = Option.none := by
  exact parseUrlGo_unknown segs t nm (typeMapLookup_eq_none t h) "" [] hmem

theorem c3_unknown_type_fails_witness :
    ∃ t', parse_werkzeug_url [RuleSegment.var (some "foo") "id"] =
      .error (.keyError (.str t')) ∧ typeMapLookup t' = Option.none := by
  exact c3_unknown_type_fails [RuleSegment.var (some "foo") "id"] "foo" "id"
    (by simp) (by decide)

/-- C3 counterexample: the claim as stated fails for the explicit
converter token `default`, which is outside the claim's fixed map
`(string, int, float, path, any, uuid)` yet is translated silently to a
string-typed parameter instead of raising. -/
theorem c3_counterexample :
    parse_rule "/items/<default:id>" =
      [RuleSegment.static "/items/", RuleSegment.var (some "default") "id"] ∧
    parse_werkzeug_url (parse_rule "/items/<default:id>") =
      .ok ("/items/\x7bid\x7d", [pathParamObj "id" "string"]) ∧
    ¬ "default" ∈ (["string", "int", "float", "path", "any", "uuid"] : List String) := by
  refine ⟨rfl, rfl, by decide⟩

/-- C4: `response(status, body)` stores under the decimal string of the
status whether it is given as an `HTTPStatus` enum member, a raw
integer, or a (decimal) string; a string body is stored as the
`#/responses/<body>` reference while a dict body is stored as-is; and
decorating the same handler again with the same status replaces the
stored response (last write wins) leaving the rest untouched. -/
theorem c4_response_decorator (fn : ViewFunc) (n : Int) (name : String)
    (kvs : List (Obj × Obj)) :
    (dget ((response_decorate (.enum n) (.dict kvs) fn).responses.getD [])
        (.str (toString n)) = some (.dict kvs))
  ∧ (dget ((response_decorate (.int n) (.dict kvs) fn).responses.getD [])
        (.str (toString n)) = some (.dict kvs))
  ∧ (dget ((response_decorate (.str (toString n)) (.dict kvs) fn).responses.getD [])
        (.str (toString n)) = some (.dict kvs))
  ∧ (dget ((response_decorate (.enum n) (.str name) fn).responses.getD [])
        (.str (toString n)) = some (ref "responses" name))
  ∧ (∀ st : StatusArg, ∀ b1 b2 : Obj,
      (response_decorate st b2 (response_decorate st b1 fn)).responses =
        (response_decorate st b2 fn).responses) := by
  refine ⟨?_, ?_, ?_, ?_, ?_⟩
  · simp [response_decorate, statusKey, dget_dinsert_self]
  · simp [response_decorate, statusKey, dget_dinsert_self]
  · simp [response_decorate, statusKey, dget_dinsert_self]
  · simp [response_decorate, statusKey, dget_dinsert_self]
  · intro st b1 b2
    cases st <;> cases b1 <;> cases b2 <;>
      simp [response_decorate, statusKey, dinsert_dinsert_self]

/-- C7: `add_definition` raises `UnnamedDefinitionError` exactly when no
usable (truthy) explicit name is supplied and the schema's `title` is
absent or unusable (falsy); the failure leaves the definition registry
unchanged; and a schema titled `Object` registered without an explicit
name is stored under the key `Object`. -/
theorem c7_add_definition (defs : PyDict) (kvs : List (Obj × Obj)) (name : Obj) :
    ((add_definition defs (.dict kvs) name).2 = some (.unnamedDefinition (.dict kvs)) ↔
      (pyTruthy name = false ∧ pyTruthy ((dget kvs (.str "title")).getD .none) = false))
  ∧ ((add_definition defs (.dict kvs) name).2.isSome →
      (add_definition defs (.dict kvs) name).1 = defs)
  ∧ (dget kvs (.str "title") = some (.str "Object") →
      add_definition defs (.dict kvs) .none =
        (dinsert defs (.str "Object") (.dict kvs), Option.none) ∧
      dget (add_definition defs (.dict kvs) .none).1 (.str "Object") = some (.dict kvs)) := by
  refine ⟨?_, ?_, ?_⟩
  · by_cases hn : pyTruthy name
    · simp [add_definition, hn]
    · by_cases ht : pyTruthy ((dget kvs (.str "title")).getD .none)
      · simp [add_definition, hn, ht]
      · simp [add_definition, hn, ht]
  · intro hsome
    by_cases hn : pyTruthy name
    · simp [add_definition, hn] at hsome
    · by_cases ht : pyTruthy ((dget kvs (.str "title")).getD .none)
      · simp [add_definition, hn, ht] at hsome
      · simp [add_definition, hn, ht]
  · intro htitle
    have h1 : add_definition defs (.dict kvs) .none =
        (dinsert defs (.str "Object") (.dict kvs), Option.none) := by
      simp [add_definition, pyTruthy, htitle, Option.getD]
    exact ⟨h1, by rw [h1]; exact dget_dinsert_self _ _ _⟩

theorem c7_add_definition_witness :
    ((add_definition [] (.dict [(.str "title", .str "Object")]) .none).2 =
        some (.unnamedDefinition (.dict [(.str "title", .str "Object")])) ↔
      (pyTruthy Obj.none = false ∧
        pyTruthy ((dget [(.str "title", .str "Object")] (.str "title")).getD .none) = false))
  ∧ add_definition [] (.dict [(.str "title", .str "Object")]) .none =
      (dinsert [] (.str "Object") (.dict [(.str "title", .str "Object")]), Option.none) := by
  have h := c7_add_definition [] [(.str "title", .str "Object")] .none
  exact ⟨h.1, (h.2.2 (by rfl)).1⟩

/-- C9: registering a definition or a response under an already-present
name silently replaces the previous entry (last write wins), raises
nothing, and leaves every other registry entry untouched. -/
theorem c9_reregistration (defs resps : PyDict) (nm : String) (hnm : nm ≠ "")
    (d1 d2 r1 r2 : Obj) :
    ((add_definition (add_definition defs d1 (.str nm)).1 d2 (.str nm)).2 = Option.none)
  ∧ (dget (add_definition (add_definition defs d1 (.str nm)).1 d2 (.str nm)).1
        (.str nm) = some d2)
  ∧ (∀ k, k ≠ Obj.str nm →
      dget (add_definition (add_definition defs d1 (.str nm)).1 d2 (.str nm)).1 k =
        dget (add_definition defs d1 (.str nm)).1 k)
  ∧ (dget (add_response (add_response resps nm r1) nm r2) (.str nm) = some r2)
  ∧ (∀ k, k ≠ Obj.str nm →
      dget (add_response (add_response resps nm r1) nm r2) k =
        dget (add_response resps nm r1) k) := by
  have htr : pyTruthy (Obj.str nm) = true := by simp [pyTruthy, hnm]
  have hadd : ∀ (ds : PyDict) (d : Obj),
      add_definition ds d (.str nm) = (dinsert ds (.str nm) d, Option.none) := by
    intro ds d
    simp [add_definition, htr]
  refine ⟨?_, ?_, ?_, ?_, ?_⟩
  · rw [hadd, hadd]
  · rw [hadd, hadd]
    exact dget_dinsert_self _ _ _
  · intro k hk
    rw [hadd, hadd]
    exact dget_dinsert_ne _ _ _ _ hk
  · exact dget_dinsert_self _ _ _
  · intro k hk
    exact dget_dinsert_ne _ _ _ _ hk

theorem c9_reregistration_witness :
    dget (add_definition
        (add_definition [] (.dict [(.str "a", .int 1)]) (.str "Spam")).1
        (.dict [(.str "a", .int 2)]) (.str "Spam")).1 (.str "Spam") =
      some (.dict [(.str "a", .int 2)]) := by
  exact (c9_reregistration [] [] "Spam" (by decide)
    (.dict [(.str "a", .int 1)]) (.dict [(.str "a", .int 2)]) .none .none).2.1

/-- C5 counterexample: invoking a schema-decorated handler whose stored
name is absent from the registry fails with Python's `KeyError` from the
plain dict lookup `self._definitions[schema]` in the wrapper, not with
`UnknownDefinitionError` as the claim states. -/
theorem c5_counterexample :
    schemaGateRun draft4Validate [] (.str "Missing")
        (fun (n : Nat) => (n + 1, Obj.none)) (.dict []) 0 =
      .error (.keyError (.str "Missing"))
  ∧ Err.keyError (.str "Missing") ≠ Err.unknownDefinition (.str "Missing") := by
  exact ⟨rfl, by intro h; cases h⟩

/-- C5 (amended): invoking a schema-decorated handler whose stored name
is absent from the Definition registry at call time fails with the
`KeyError` of the registry lookup, before the original handler runs (the
gate's outcome does not depend on the handler at all). -/
theorem c5_missing_name_at_call {σ : Type} (validate : Obj → Obj → Except Err Unit)
    (defs : PyDict) (nm : String) (fn fn' : σ → σ × Obj) (req : Obj) (st : σ)
    (habs : dget defs (.str nm) = Option.none) :
    schemaGateRun validate defs (.str nm) fn req st = .error (.keyError (.str nm))
  ∧ schemaGateRun validate defs (.str nm) fn req st =
      schemaGateRun validate defs (.str nm) fn' req st := by
  constructor <;> simp [schemaGateRun, habs]

theorem c5_missing_name_at_call_witness :
    schemaGateRun draft4Validate [(.str "Spam", .dict [])] (.str "Eggs")
        (fun (n : Nat) => (n + 1, Obj.none)) (.dict []) 0 =
      .error (.keyError (.str "Eggs")) := by
  exact (c5_missing_name_at_call draft4Validate [(.str "Spam", .dict [])] "Eggs"
    (fun n => (n + 1, Obj.none)) (fun n => (n, Obj.none)) (.dict []) 0 (by rfl)).1

/-- C6: the validation gate rejects a request body that fails validation
with the raised `SchemaValidationError`-class condition and the original
handler is never invoked (the gate's outcome is independent of the
handler, so no handler side effects occur); a conforming body makes the
handler run exactly once with its result returned unchanged. This holds
both for an inline stored schema and for a stored name that resolves in
the registry. Under the modelled Draft-4 semantics, `\x7b\x7d` violates
the object schema requiring `spam` and is rejected, while a body with
member `spam` is accepted. -/
theorem c6_validation_gate {σ : Type} (validate : Obj → Obj → Except Err Unit)
    (defs : PyDict) (kvs : List (Obj × Obj)) (nm : String) (sch : Obj)
    (fn fn' : σ → σ × Obj) (req : Obj) (st : σ) (e : Err) :
    (validate (.dict kvs) req = .error e →
      schemaGateRun validate defs (.dict kvs) fn req st = .error e ∧
      schemaGateRun validate defs (.dict kvs) fn req st =
        schemaGateRun validate defs (.dict kvs) fn' req st)
  ∧ (validate (.dict kvs) req = .ok () →
      schemaGateRun validate defs (.dict kvs) fn req st = .ok (fn st))
  ∧ (dget defs (.str nm) = some sch → validate sch req = .error e →
      schemaGateRun validate defs (.str nm) fn req st = .error e ∧
      schemaGateRun validate defs (.str nm) fn req st =
        schemaGateRun validate defs (.str nm) fn' req st)
  ∧ (dget defs (.str nm) = some sch → validate sch req = .ok () →
      schemaGateRun validate defs (.str nm) fn req st = .ok (fn st))
  ∧ draft4Validate requiredSpamSchema (.dict []) = .error .schemaValidation
  ∧ draft4Validate requiredSpamSchema (.dict [(.str "spam", .str "bacon")]) = .ok ()
  ∧ schemaGateRun draft4Validate defs requiredSpamSchema fn (.dict []) st =
      .error .schemaValidation
  ∧ schemaGateRun draft4Validate defs requiredSpamSchema fn
      (.dict [(.str "spam", .str "bacon")]) st = .ok (fn st) := by
  refine ⟨?_, ?_, ?_, ?_, rfl, rfl, rfl, rfl⟩
  · intro hv
    constructor <;> simp [schemaGateRun, hv]
  · intro hv
    simp [schemaGateRun, hv]
  · intro hres hv
    constructor <;> simp [schemaGateRun, hres, hv]
  · intro hres hv
    simp [schemaGateRun, hres, hv]

theorem process_rule_parameters (defs : PyDict) (vf : ViewFunc) (s : Obj)
    (hex : extract_schema defs vf = .ok (some s)) (hs : pyTruthy s = true) :
    ∃ op, process_rule defs vf = .ok op ∧
      dget op (.str "parameters") =
        some (.list [.dict [(.str "in", .str "body"), (.str "name", .str "payload"),
                            (.str "schema", s)]]) := by
  rw [process_rule, hex]
  dsimp only
  rw [if_pos hs]
  refine ⟨_, rfl, ?_⟩
  have base :
      dget (dinsert ([] : PyDict) (.str "parameters")
          (.list [.dict [(.str "in", .str "body"), (.str "name", .str "payload"),
                         (.str "schema", s)]])) (.str "parameters") =
        some (.list [.dict [(.str "in", .str "body"), (.str "name", .str "payload"),
                            (.str "schema", s)]]) :=
    dget_dinsert_self _ _ _
  generalize hval : Obj.list [.dict [(.str "in", .str "body"), (.str "name", .str "payload"),
      (.str "schema", s)]] = V at base ⊢
  set d0 := dinsert ([] : PyDict) (.str "parameters") V with hd0
  have s1 : dget (match vf.responses with
      | some r => dinsert d0 (.str "responses") (.dict r)
      | Option.none => d0) (.str "parameters") = some V := by
    cases vf.responses with
    | none => exact base
    | some r =>
      rw [dget_dinsert_ne _ _ _ _ (by decide)]
      exact base
  set d1 := (match vf.responses with
      | some r => dinsert d0 (.str "responses") (.dict r)
      | Option.none => d0) with hd1
  have s2 : dget (add_optional d1 "description"
      (match vf.doc with | some d => .str d | Option.none => .none))
      (.str "parameters") = some V := by
    rw [dget_add_optional_ne _ _ _ _ (by decide)]
    exact s1
  set d2 := add_optional d1 "description"
      (match vf.doc with | some d => .str d | Option.none => .none) with hd2
  have s3 : dget (add_optional d2 "deprecated" (vf.deprecated.getD .none))
      (.str "parameters") = some V := by
    rw [dget_add_optional_ne _ _ _ _ (by decide)]
    exact s2
  set d3 := add_optional d2 "deprecated" (vf.deprecated.getD .none) with hd3
  cases vf.tags with
  | none => exact s3
  | some ts =>
    rw [dget_dinsert_ne _ _ _ _ (by decide)]
    exact s3

theorem methodsGo_single (defs : PyDict) (vf : ViewFunc) (m : String) (sub : PyDict)
    (op : PyDict) (hm : ¬(m = "HEAD" ∨ m = "OPTIONS"))
    (hop : process_rule defs vf = .ok op) :
    methodsGo defs vf [m] sub = .ok (dinsert sub (.str (strToLower m)) (.dict op)) := by
  rw [methodsGo, if_neg hm, hop]
  rfl

theorem pathsGo_single (app : AppState) (t e m u : String) (ps : List Obj)
    (vf : ViewFunc) (op : PyDict)
    (he : ¬ e = "static")
    (hparse : parse_werkzeug_url (parse_rule t) = .ok (u, ps))
    (hvf : lookupVf app.view_functions e = some vf)
    (hm : ¬(m = "HEAD" ∨ m = "OPTIONS"))
    (hop : process_rule app.definitions vf = .ok op) :
    pathsGo app [⟨t, e, [m]⟩] [] =
      .ok (dinsert [] (.str u) (.dict (dinsert
        (if ps.isEmpty then ([] : PyDict) else dinsert [] (.str "parameters") (.list ps))
        (.str (strToLower m)) (.dict op)))) := by
  rw [pathsGo]
  dsimp only
  rw [if_neg he, hparse]
  dsimp only
  rw [hvf]
  dsimp only
  rw [methodsGo_single _ _ _ _ _ hm hop]
  rfl

theorem swaggerBuild_of_paths (app : AppState) (ps : PyDict)
    (h : pathsBuild app = .ok ps) : ∃ doc, swaggerBuild app = .ok doc := by
  rw [swaggerBuild, h]
  exact ⟨_, rfl⟩

theorem swaggerBuild_err (app : AppState) (e : Err) (h : pathsBuild app = .error e) :
    swaggerBuild app = .error e := by
  rw [swaggerBuild, h]

theorem str_ne_of_ne {a b : String} (h : a ≠ b) : Obj.str a ≠ Obj.str b := by
  intro hh
  injection hh with hh
  exact h hh

theorem subFor_nil (u : String) : subFor [] u = [] := rfl

theorem dinsert_nil (k v : Obj) : dinsert [] k v = [(k, v)] := rfl

theorem subFor_cons_self (u : String) (A : PyDict) (rest : PyDict) :
    subFor ((Obj.str u, Obj.dict A) :: rest) u = A := by
  simp [subFor, dget]

theorem dinsert_head_self (k v v2 : Obj) (rest : PyDict) :
    dinsert ((k, v) :: rest) k v2 = (k, v2) :: rest := by
  simp [dinsert]

theorem pathsGo_cons (app : AppState) (t e m u : String) (ps : List Obj)
    (vf : ViewFunc) (op : PyDict) (rs : List Rule) (paths : PyDict)
    (he : ¬ e = "static")
    (hparse : parse_werkzeug_url (parse_rule t) = .ok (u, ps))
    (hvf : lookupVf app.view_functions e = some vf)
    (hm : ¬(m = "HEAD" ∨ m = "OPTIONS"))
    (hop : process_rule app.definitions vf = .ok op) :
    pathsGo app (⟨t, e, [m]⟩ :: rs) paths =
      pathsGo app rs (dinsert paths (.str u) (.dict (dinsert
        (if ps.isEmpty then subFor paths u
         else dinsert (subFor paths u) (.str "parameters") (.list ps))
        (.str (strToLower m)) (.dict op)))) := by
  rw [pathsGo]
  dsimp only
  rw [if_neg he, hparse]
  dsimp only
  rw [hvf]
  dsimp only
  rw [methodsGo_single _ _ _ _ _ hm hop]

theorem pathsGo_single_err (app : AppState) (t e m u : String) (ps : List Obj)
    (vf : ViewFunc) (err : Err)
    (he : ¬ e = "static")
    (hparse : parse_werkzeug_url (parse_rule t) = .ok (u, ps))
    (hvf : lookupVf app.view_functions e = some vf)
    (hm : ¬(m = "HEAD" ∨ m = "OPTIONS"))
    (hop : process_rule app.definitions vf = .error err) :
    pathsGo app [⟨t, e, [m]⟩] [] = .error err := by
  rw [pathsGo]
  dsimp only
  rw [if_neg he, hparse]
  dsimp only
  rw [hvf]
  dsimp only
  rw [methodsGo, if_neg hm, hop]

/-- C1 counterexample: a handler decorated with the inline dict schema
`\x7b\x7d` (the empty JSON schema, a legal schema accepting everything)
produces an operation object with no body parameter at all, because
`_process_rule` guards the parameter on the schema's truthiness; the
claim's "an inline dict schema passes through verbatim" fails on it. -/
theorem c1_counterexample :
    process_rule [] { schema := some (.dict []) } = .ok []
  ∧ dget ([] : PyDict) (.str "parameters") = Option.none := ⟨rfl, rfl⟩

/-- C1 (amended): decorating a handler with a schema name is total (it
never raises and stores the name); resolution happens at assembly time:
an unregistered name fails the whole `swagger` assembly with
`UnknownDefinitionError`, a registered name assembles successfully and
gives the operation object a body parameter whose schema is the
`#/definitions/<name>` reference, and an inline dict schema passes
through verbatim as the body parameter's schema provided the dict is
non-empty (an empty inline dict is falsy and yields no body
parameter). -/
theorem c1_schema_resolution (defs : PyDict) (vf : ViewFunc) (nm : String)
    (cfg : Config) (kvs : List (Obj × Obj)) :
    (schemaDecorate (.str nm) vf).schema = some (.str nm)
  ∧ (dmemB defs (.str nm) = false →
      swaggerBuild (oneRouteApp cfg defs (schemaDecorate (.str nm) vf)) =
        .error (.unknownDefinition (.str nm)))
  ∧ (dmemB defs (.str nm) = true →
      (∃ doc, swaggerBuild (oneRouteApp cfg defs (schemaDecorate (.str nm) vf)) = .ok doc)
    ∧ ∃ op, process_rule defs (schemaDecorate (.str nm) vf) = .ok op ∧
        dget op (.str "parameters") =
          some (.list [.dict [(.str "in", .str "body"), (.str "name", .str "payload"),
                              (.str "schema", ref "definitions" nm)]]))
  ∧ (kvs ≠ [] →
      ∃ op, process_rule defs (schemaDecorate (.dict kvs) vf) = .ok op ∧
        dget op (.str "parameters") =
          some (.list [.dict [(.str "in", .str "body"), (.str "name", .str "payload"),
                              (.str "schema", .dict kvs)]])) := by
  have hpost : ¬(("POST" : String) = "HEAD" ∨ ("POST" : String) = "OPTIONS") := by decide
  have hstat : ¬("h" : String) = "static" := by decide
  have hparse : parse_werkzeug_url (parse_rule "/spam") = .ok ("/spam", []) := rfl
  refine ⟨rfl, ?_, ?_, ?_⟩
  · intro hni
    have hexu : extract_schema defs (schemaDecorate (.str nm) vf) =
        .error (.unknownDefinition (.str nm)) := by
      simp [extract_schema, schemaDecorate, hni]
    have hpr : process_rule defs (schemaDecorate (.str nm) vf) =
        .error (.unknownDefinition (.str nm)) := by
      rw [process_rule, hexu]
    have hpg := pathsGo_single_err (oneRouteApp cfg defs (schemaDecorate (.str nm) vf))
      "/spam" "h" "POST" "/spam" [] (schemaDecorate (.str nm) vf)
      (.unknownDefinition (.str nm)) hstat hparse rfl hpost hpr
    have hpb : pathsBuild (oneRouteApp cfg defs (schemaDecorate (.str nm) vf)) =
        .error (.unknownDefinition (.str nm)) := by
      rw [pathsBuild]
      exact hpg
    exact swaggerBuild_err _ _ hpb
  · intro hmem
    have hex : extract_schema defs (schemaDecorate (.str nm) vf) =
        .ok (some (ref "definitions" nm)) := by
      simp [extract_schema, schemaDecorate, hmem]
    obtain ⟨op, hop, hparam⟩ := process_rule_parameters defs _ _ hex rfl
    refine ⟨?_, ⟨op, hop, hparam⟩⟩
    have hpg := pathsGo_single (oneRouteApp cfg defs (schemaDecorate (.str nm) vf))
      "/spam" "h" "POST" "/spam" [] (schemaDecorate (.str nm) vf) op
      hstat hparse rfl hpost hop
    have hpb : pathsBuild (oneRouteApp cfg defs (schemaDecorate (.str nm) vf)) =
        .ok (dinsert [] (.str "/spam") (.dict (dinsert
          (if ([] : List Obj).isEmpty then ([] : PyDict)
           else dinsert [] (.str "parameters") (.list []))
          (.str (strToLower "POST")) (.dict op)))) := by
      rw [pathsBuild]
      exact hpg
    exact swaggerBuild_of_paths _ _ hpb
  · intro hkvs
    have hex : extract_schema defs (schemaDecorate (.dict kvs) vf) =
        .ok (some (.dict kvs)) := by
      simp [extract_schema, schemaDecorate]
    have hs : pyTruthy (.dict kvs) = true := by
      cases kvs with
      | nil => cases hkvs rfl
      | cons a l => rfl
    exact process_rule_parameters defs _ _ hex hs

theorem dget_str_add_optional_ne (d : PyDict) (key : String) (v : Obj) (key' : String)
    (h : key' ≠ key) :
    dget (add_optional d key v) (.str key') = dget d (.str key') :=
  dget_add_optional_ne d key v _ (str_ne_of_ne h)

theorem dget_base_none (a b c : Obj) (key' : String)
    (h1 : key' ≠ "swagger") (h2 : key' ≠ "info") (h3 : key' ≠ "paths") :
    dget [(.str "swagger", a), (.str "info", b), (.str "paths", c)] (.str key') =
      Option.none := by
  simp [dget, str_ne_of_ne (Ne.symm h1), str_ne_of_ne (Ne.symm h2), str_ne_of_ne (Ne.symm h3)]

theorem entryParamOk_nil : entryParamOk [] := by
  intro v hv
  cases hv

theorem subFor_param_ok (paths : PyDict) (url : String) (hok : pathsParamOk paths) :
    entryParamOk (subFor paths url) := by
  intro v hv
  rw [subFor] at hv
  cases hg : dget paths (.str url) with
  | none =>
    rw [hg] at hv
    cases hv
  | some o =>
    rw [hg] at hv
    cases o with
    | dict kvs => exact hok (Obj.str url) kvs hg v hv
    | none => cases hv
    | bool x => cases hv
    | int x => cases hv
    | str x => cases hv
    | list x => cases hv

theorem methodsGo_param_ok (defs : PyDict) (vf : ViewFunc) (ms : List String)
    (hm : ∀ m ∈ ms, strToLower m ≠ "parameters") :
    ∀ sub sub2, entryParamOk sub → methodsGo defs vf ms sub = .ok sub2 →
      entryParamOk sub2 := by
  induction ms with
  | nil =>
    intro sub sub2 hok h
    rw [methodsGo] at h
    injection h with h
    rwa [← h]
  | cons m ms ih =>
    intro sub sub2 hok h
    rw [methodsGo] at h
    by_cases hho : (m = "HEAD" ∨ m = "OPTIONS")
    · rw [if_pos hho] at h
      exact ih (fun m' hm' => hm m' (List.mem_cons_of_mem _ hm')) sub sub2 hok h
    · rw [if_neg hho] at h
      cases hpr : process_rule defs vf with
      | error e =>
        rw [hpr] at h
        cases h
      | ok op =>
        rw [hpr] at h
        refine ih (fun m' hm' => hm m' (List.mem_cons_of_mem _ hm')) _ _ ?_ h
        intro v hv
        rw [dget_dinsert_ne _ _ _ _
          (str_ne_of_ne (Ne.symm (hm m (List.mem_cons_self m ms))))] at hv
        exact hok v hv

theorem pathsGo_param_ok (app : AppState) (rules : List Rule)
    (hm : ∀ r ∈ rules, ∀ m ∈ r.methods, strToLower m ≠ "parameters") :
    ∀ paths final, pathsParamOk paths → pathsGo app rules paths = .ok final →
      pathsParamOk final := by
  induction rules with
  | nil =>
    intro paths final hok h
    rw [pathsGo] at h
    injection h with h
    rwa [← h]
  | cons r rs ih =>
    intro paths final hok h
    have hmtail : ∀ r' ∈ rs, ∀ m ∈ r'.methods, strToLower m ≠ "parameters" :=
      fun r' hr' => hm r' (List.mem_cons_of_mem _ hr')
    rw [pathsGo] at h
    by_cases hst : r.endpoint = "static"
    · rw [if_pos hst] at h
      exact ih hmtail paths final hok h
    · rw [if_neg hst] at h
      cases hp : parse_werkzeug_url (parse_rule r.rule) with
      | error e =>
        rw [hp] at h
        cases h
      | ok pr =>
        obtain ⟨url, params⟩ := pr
        rw [hp] at h
        cases hv : lookupVf app.view_functions r.endpoint with
        | none =>
          rw [hv] at h
          cases h
        | some vf =>
          rw [hv] at h
          dsimp only at h
          cases hmg : methodsGo app.definitions vf r.methods
              (if params.isEmpty then subFor paths url
               else dinsert (subFor paths url) (.str "parameters") (.list params)) with
          | error e =>
            rw [hmg] at h
            cases h
          | ok sub2 =>
            rw [hmg] at h
            refine ih hmtail _ _ ?_ h
            have hsub1 : entryParamOk (if params.isEmpty then subFor paths url
                else dinsert (subFor paths url) (.str "parameters") (.list params)) := by
              by_cases hpe : params.isEmpty
              · rw [if_pos hpe]
                exact subFor_param_ok paths url hok
              · rw [if_neg hpe]
                intro v hv
                rw [dget_dinsert_self] at hv
                injection hv with hv
                refine ⟨params, hv.symm, ?_⟩
                cases params with
                | nil => exact absurd rfl hpe
                | cons a l => simp
            have hsub2 := methodsGo_param_ok app.definitions vf r.methods
              (hm r (List.mem_cons_self r rs)) _ _ hsub1 hmg
            intro u' e' hue
            by_cases huu : u' = Obj.str url
            · rw [huu, dget_dinsert_self] at hue
              injection hue with hue
              injection hue with hue
              intro v hv
              rw [hue] at hsub2
              exact hsub2 v hv
            · rw [dget_dinsert_ne _ _ _ _ huu] at hue
              exact hok u' e' hue

/-- C2 counterexample: the fully assembled document for a handler
decorated with `tag()` with no names (an empty tag set) binds the
operation's `tags` key to the empty list, so an optional key can be
bound to an empty container, contradicting the claim. -/
theorem c2_counterexample :
    swaggerBuild (oneRouteApp {} [] (tagDecorate [] {})) =
      .ok [(.str "swagger", .str "2.0"),
           (.str "info", .dict [(.str "title", .str "app"), (.str "version", .none)]),
           (.str "paths", .dict [(.str "/spam",
              .dict [(.str "post", .dict [(.str "tags", .list [])])])]),
           (.str "schemes", .list [.str "http"])]
  ∧ dget [(Obj.str "tags", Obj.list [])] (.str "tags") = some (.list []) := ⟨rfl, rfl⟩

/-- C2 (amended): top-level `host`, `basePath`, `schemes`,
`definitions`, `responses`, `tags` and per-operation `description` and
`deprecated` are present in the document exactly when their computed
value is neither `None` nor the empty dict (the `add_optional` guard),
and are then bound to that value — so none of these keys is ever bound
to null; the container-valued fields `schemes`, `definitions`,
`responses` and top-level `tags` are never present and empty, and a path
entry's `parameters` key, when present, is always a non-empty list; but
an operation's `tags` key is emitted (as the empty list) whenever the
handler carries a tags attribute even if the set is empty, and
`description` is emitted for any present docstring even when empty. -/
theorem c2_optional_fields :
    (∀ app doc, swaggerBuild app = .ok doc →
       dget doc (.str "host") = addOptGet (hostProp app)
     ∧ dget doc (.str "basePath") = addOptGet app.config.base_path
     ∧ dget doc (.str "schemes") = addOptGet (schemesProp app)
     ∧ dget doc (.str "definitions") = addOptGet (definitionsProp app)
     ∧ dget doc (.str "responses") = addOptGet (responsesProp app)
     ∧ dget doc (.str "tags") = addOptGet (tagsProp app))
  ∧ (∀ app : AppState,
       (schemesProp app = .none ∨ ∃ x, schemesProp app = .list [x])
     ∧ (definitionsProp app = .none ∨
         ∃ kvs, definitionsProp app = .dict kvs ∧ kvs ≠ [])
     ∧ (responsesProp app = .none ∨
         ∃ kvs, responsesProp app = .dict kvs ∧ kvs ≠ [])
     ∧ (tagsProp app = .none ∨ ∃ l, tagsProp app = .list l ∧ l ≠ [])
     ∧ (hostProp app = .none ∨ hostProp app = app.config.server_name))
  ∧ (∀ defs vf op, process_rule defs vf = .ok op →
       dget op (.str "description") =
         (match vf.doc with | some d => some (.str d) | Option.none => Option.none)
     ∧ dget op (.str "deprecated") = addOptGet (vf.deprecated.getD .none)
     ∧ dget op (.str "tags") =
         (match vf.tags with
          | some ts => some (.list ((sortStrings ts).map Obj.str))
          | Option.none => Option.none))
  ∧ (∀ app rules paths final,
       (∀ r ∈ rules, ∀ m ∈ r.methods, strToLower m ≠ "parameters") →
       pathsParamOk paths → pathsGo app rules paths = .ok final →
       pathsParamOk final) := by
  refine ⟨?_, ?_, ?_, ?_⟩
  · intro app doc h
    rw [swaggerBuild] at h
    cases hpb : pathsBuild app with
    | error e =>
      rw [hpb] at h
      cases h
    | ok ps =>
      rw [hpb] at h
      dsimp only at h
      injection h with h
      subst h
      refine ⟨?_, ?_, ?_, ?_, ?_, ?_⟩
      · rw [dget_str_add_optional_ne _ _ _ _ (by decide),
            dget_str_add_optional_ne _ _ _ _ (by decide),
            dget_str_add_optional_ne _ _ _ _ (by decide),
            dget_str_add_optional_ne _ _ _ _ (by decide),
            dget_str_add_optional_ne _ _ _ _ (by decide),
            dget_str_add_optional_ne _ _ _ _ (by decide),
            dget_add_optional_self,
            dget_base_none _ _ _ _ (by decide) (by decide) (by decide), addOptGet]
      · rw [dget_str_add_optional_ne _ _ _ _ (by decide),
            dget_str_add_optional_ne _ _ _ _ (by decide),
            dget_str_add_optional_ne _ _ _ _ (by decide),
            dget_str_add_optional_ne _ _ _ _ (by decide),
            dget_str_add_optional_ne _ _ _ _ (by decide),
            dget_add_optional_self,
            dget_str_add_optional_ne _ _ _ _ (by decide),
            dget_base_none _ _ _ _ (by decide) (by decide) (by decide), addOptGet]
      · rw [dget_str_add_optional_ne _ _ _ _ (by decide),
            dget_str_add_optional_ne _ _ _ _ (by decide),
            dget_str_add_optional_ne _ _ _ _ (by decide),
            dget_str_add_optional_ne _ _ _ _ (by decide),
            dget_add_optional_self,
            dget_str_add_optional_ne _ _ _ _ (by decide),
            dget_str_add_optional_ne _ _ _ _ (by decide),
            dget_base_none _ _ _ _ (by decide) (by decide) (by decide), addOptGet]
      · rw [dget_str_add_optional_ne _ _ _ _ (by decide),
            dget_str_add_optional_ne _ _ _ _ (by decide),
            dget_add_optional_self,
            dget_str_add_optional_ne _ _ _ _ (by decide),
            dget_str_add_optional_ne _ _ _ _ (by decide),
            dget_str_add_optional_ne _ _ _ _ (by decide),
            dget_str_add_optional_ne _ _ _ _ (by decide),
            dget_base_none _ _ _ _ (by decide) (by decide) (by decide), addOptGet]
      · rw [dget_str_add_optional_ne _ _ _ _ (by decide),
            dget_add_optional_self,
            dget_str_add_optional_ne _ _ _ _ (by decide),
            dget_str_add_optional_ne _ _ _ _ (by decide),
            dget_str_add_optional_ne _ _ _ _ (by decide),
            dget_str_add_optional_ne _ _ _ _ (by decide),
            dget_str_add_optional_ne _ _ _ _ (by decide),
            dget_base_none _ _ _ _ (by decide) (by decide) (by decide), addOptGet]
      · rw [dget_add_optional_self,
            dget_str_add_optional_ne _ _ _ _ (by decide),
            dget_str_add_optional_ne _ _ _ _ (by decide),
            dget_str_add_optional_ne _ _ _ _ (by decide),
            dget_str_add_optional_ne _ _ _ _ (by decide),
            dget_str_add_optional_ne _ _ _ _ (by decide),
            dget_str_add_optional_ne _ _ _ _ (by decide),
            dget_base_none _ _ _ _ (by decide) (by decide) (by decide), addOptGet]
  · intro app
    refine ⟨?_, ?_, ?_, ?_, ?_⟩
    · rw [schemesProp]
      by_cases h : pyTruthy app.config.preferred_url_scheme
      · rw [if_pos h]
        exact Or.inr ⟨_, rfl⟩
      · rw [if_neg h]
        exact Or.inl rfl
    · rw [definitionsProp]
      by_cases h : app.definitions.isEmpty
      · rw [if_pos h]
        exact Or.inl rfl
      · rw [if_neg h]
        refine Or.inr ⟨app.definitions, rfl, ?_⟩
        intro he
        rw [he] at h
        exact h rfl
    · rw [responsesProp]
      by_cases h : app.responses.isEmpty
      · rw [if_pos h]
        exact Or.inl rfl
      · rw [if_neg h]
        refine Or.inr ⟨app.responses, rfl, ?_⟩
        intro he
        rw [he] at h
        exact h rfl
    · rw [tagsProp]
      by_cases h : app.tags.isEmpty
      · rw [if_pos h]
        exact Or.inl rfl
      · rw [if_neg h]
        refine Or.inr ⟨_, rfl, ?_⟩
        intro he
        rw [List.map_eq_nil_iff] at he
        cases ht : app.tags with
        | nil =>
          rw [ht] at h
          exact h rfl
        | cons t ts =>
          rw [ht] at he
          exact sortStrings_ne_nil t ts he
    · rw [hostProp]
      by_cases h : pyTruthy app.config.show_host
      · rw [if_pos h]
        exact Or.inr rfl
      · rw [if_neg h]
        exact Or.inl rfl
  · intro defs vf op h
    rw [process_rule] at h
    cases hex : extract_schema defs vf with
    | error e =>
      rw [hex] at h
      cases h
    | ok schema =>
      rw [hex] at h
      dsimp only at h
      injection h with h
      subst h
      clear hex
      have stepParams : ∀ (k' : String), Obj.str k' ≠ Obj.str "parameters" →
          dget (match schema with
            | some s =>
              if pyTruthy s then
                dinsert [] (.str "parameters")
                  (.list [.dict [(.str "in", .str "body"), (.str "name", .str "payload"),
                                 (.str "schema", s)]])
              else ([] : PyDict)
            | Option.none => ([] : PyDict)) (.str k') = Option.none := by
        intro k' hne
        cases schema with
        | none => rfl
        | some s =>
          dsimp only
          by_cases hp : pyTruthy s
          · rw [if_pos hp, dget_dinsert_ne _ _ _ _ hne]
            rfl
          · rw [if_neg hp]
            rfl
      have stepResp : ∀ (d : PyDict) (k' : String), Obj.str k' ≠ Obj.str "responses" →
          dget (match vf.responses with
            | some r => dinsert d (.str "responses") (.dict r)
            | Option.none => d) (.str k') = dget d (.str k') := by
        intro d k' hne
        cases vf.responses with
        | none => rfl
        | some r => exact dget_dinsert_ne _ _ _ _ hne
      have stepTags : ∀ (d : PyDict) (k' : String), Obj.str k' ≠ Obj.str "tags" →
          dget (match vf.tags with
            | some ts => dinsert d (.str "tags") (.list ((sortStrings ts).map Obj.str))
            | Option.none => d) (.str k') = dget d (.str k') := by
        intro d k' hne
        cases vf.tags with
        | none => rfl
        | some ts => exact dget_dinsert_ne _ _ _ _ hne
      refine ⟨?_, ?_, ?_⟩
      · rw [stepTags _ _ (by decide), dget_str_add_optional_ne _ _ _ _ (by decide),
            dget_add_optional_self, stepResp _ _ (by decide), stepParams _ (by decide)]
        cases vf.doc with
        | none => rfl
        | some d => rfl
      · rw [stepTags _ _ (by decide), dget_add_optional_self,
            dget_str_add_optional_ne _ _ _ _ (by decide),
            stepResp _ _ (by decide), stepParams _ (by decide), addOptGet]
      · cases hts : vf.tags with
        | none =>
          rw [dget_str_add_optional_ne _ _ _ _ (by decide),
              dget_str_add_optional_ne _ _ _ _ (by decide),
              stepResp _ _ (by decide), stepParams _ (by decide)]
        | some ts =>
          rw [dget_dinsert_self]
  · exact fun app rules paths final hm hok h => pathsGo_param_ok app rules hm paths final hok h

theorem c2_optional_fields_witness :
    pathsParamOk [(.str "/items/\x7bid\x7d", .dict
      [(.str "parameters", .list [pathParamObj "id" "integer"]),
       (.str "get", .dict [])])] := by
  refine c2_optional_fields.2.2.2
    (twoRouteApp ⟨"/items/<int:id>", "a", ["GET"]⟩ ⟨"/x", "b", ["POST"]⟩ [("a", {})] [])
    [⟨"/items/<int:id>", "a", ["GET"]⟩] [] _ (by decide) ?_ rfl
  intro u e h
  cases h

/-- C10 counterexample: the rules `/items/<int:id>` and the literal
`/items/(brace)id(brace)` are two distinct routing rules that translate
to the same path key, yet the later-iterated rule does not overwrite the
path-level parameters list: its own translated parameter list is empty,
so the merged entry keeps the earlier rule's integer parameter. -/
theorem c10_counterexample :
    parse_werkzeug_url (parse_rule "/items/<int:id>") =
      .ok ("/items/\x7bid\x7d", [pathParamObj "id" "integer"])
  ∧ parse_werkzeug_url (parse_rule "/items/\x7bid\x7d") = .ok ("/items/\x7bid\x7d", [])
  ∧ pathsBuild (twoRouteApp ⟨"/items/<int:id>", "a", ["GET"]⟩
      ⟨"/items/\x7bid\x7d", "b", ["POST"]⟩ [("a", {}), ("b", {})] []) =
      .ok [(.str "/items/\x7bid\x7d", .dict
        [(.str "parameters", .list [pathParamObj "id" "integer"]),
         (.str "get", .dict []), (.str "post", .dict [])])] := ⟨rfl, rfl, rfl⟩

/-- C10 (amended): two distinct single-method rules that translate to the
same path key are merged into one paths entry with no error: the entry's
per-method operations are the union over both rules, the later rule wins
a shared method name, and the later rule overwrites the path-level
parameters list exactly when its own translated parameter list is
non-empty (a later rule with no placeholders leaves the earlier rule's
parameters in place). -/
theorem c10_same_key_merge (vfs : List (String × ViewFunc)) (defs : PyDict)
    (t1 e1 m1 t2 e2 m2 u : String) (p1 p2 : List Obj)
    (vf1 vf2 : ViewFunc) (op1 op2 : PyDict)
    (he1 : ¬ e1 = "static") (he2 : ¬ e2 = "static")
    (hparse1 : parse_werkzeug_url (parse_rule t1) = .ok (u, p1))
    (hparse2 : parse_werkzeug_url (parse_rule t2) = .ok (u, p2))
    (hvf1 : lookupVf vfs e1 = some vf1)
    (hvf2 : lookupVf vfs e2 = some vf2)
    (hm1 : ¬(m1 = "HEAD" ∨ m1 = "OPTIONS")) (hm2 : ¬(m2 = "HEAD" ∨ m2 = "OPTIONS"))
    (hop1 : process_rule defs vf1 = .ok op1) (hop2 : process_rule defs vf2 = .ok op2)
    (hmp1 : strToLower m1 ≠ "parameters") (hmp2 : strToLower m2 ≠ "parameters") :
    ∃ entry, pathsBuild (twoRouteApp ⟨t1, e1, [m1]⟩ ⟨t2, e2, [m2]⟩ vfs defs) =
        .ok [(.str u, .dict entry)]
      ∧ dget entry (.str (strToLower m2)) = some (.dict op2)
      ∧ (strToLower m1 ≠ strToLower m2 → dget entry (.str (strToLower m1)) = some (.dict op1))
      ∧ (p2 ≠ [] → dget entry (.str "parameters") = some (.list p2))
      ∧ (p2 = [] → p1 ≠ [] → dget entry (.str "parameters") = some (.list p1)) := by
  have hv1 : lookupVf (twoRouteApp ⟨t1, e1, [m1]⟩ ⟨t2, e2, [m2]⟩ vfs defs).view_functions e1 =
      some vf1 := hvf1
  have hv2 : lookupVf (twoRouteApp ⟨t1, e1, [m1]⟩ ⟨t2, e2, [m2]⟩ vfs defs).view_functions e2 =
      some vf2 := hvf2
  have ho1 : process_rule (twoRouteApp ⟨t1, e1, [m1]⟩ ⟨t2, e2, [m2]⟩ vfs defs).definitions vf1 =
      .ok op1 := hop1
  have ho2 : process_rule (twoRouteApp ⟨t1, e1, [m1]⟩ ⟨t2, e2, [m2]⟩ vfs defs).definitions vf2 =
      .ok op2 := hop2
  have key : ∃ A1 S2,
      A1 = dinsert (if p1.isEmpty then ([] : PyDict)
          else dinsert [] (.str "parameters") (.list p1)) (.str (strToLower m1)) (.dict op1)
    ∧ S2 = (if p2.isEmpty then A1 else dinsert A1 (.str "parameters") (.list p2))
    ∧ pathsBuild (twoRouteApp ⟨t1, e1, [m1]⟩ ⟨t2, e2, [m2]⟩ vfs defs) =
        .ok [(.str u, .dict (dinsert S2 (.str (strToLower m2)) (.dict op2)))] := by
    refine ⟨_, _, rfl, rfl, ?_⟩
    rw [pathsBuild]
    have hrules : (twoRouteApp ⟨t1, e1, [m1]⟩ ⟨t2, e2, [m2]⟩ vfs defs).rules =
        [⟨t1, e1, [m1]⟩, ⟨t2, e2, [m2]⟩] := rfl
    rw [hrules]
    rw [pathsGo_cons _ t1 e1 m1 u p1 vf1 op1 _ _ he1 hparse1 hv1 hm1 ho1]
    simp only [subFor_nil, dinsert_nil]
    rw [pathsGo_cons _ t2 e2 m2 u p2 vf2 op2 [] _ he2 hparse2 hv2 hm2 ho2]
    rw [subFor_cons_self, dinsert_head_self]
    rw [pathsGo]
  obtain ⟨A1, S2, hA1, hS2, hmain⟩ := key
  refine ⟨dinsert S2 (.str (strToLower m2)) (.dict op2), hmain, dget_dinsert_self _ _ _,
    ?_, ?_, ?_⟩
  · intro hne
    rw [dget_dinsert_ne _ _ _ _ (str_ne_of_ne hne), hS2]
    by_cases hp2 : p2.isEmpty
    · rw [if_pos hp2, hA1]
      exact dget_dinsert_self _ _ _
    · rw [if_neg hp2, dget_dinsert_ne _ _ _ _ (str_ne_of_ne hmp1), hA1]
      exact dget_dinsert_self _ _ _
  · intro hp2ne
    have hp2 : ¬ p2.isEmpty = true := by
      cases p2 with
      | nil => exact absurd rfl hp2ne
      | cons a l => simp [List.isEmpty]
    rw [dget_dinsert_ne _ _ _ _ (str_ne_of_ne (Ne.symm hmp2)), hS2, if_neg hp2]
    exact dget_dinsert_self _ _ _
  · intro hp2e hp1ne
    have hp1 : ¬ p1.isEmpty = true := by
      cases p1 with
      | nil => exact absurd rfl hp1ne
      | cons a l => simp [List.isEmpty]
    have hp2 : p2.isEmpty = true := by rw [hp2e]; rfl
    rw [dget_dinsert_ne _ _ _ _ (str_ne_of_ne (Ne.symm hmp2)), hS2, if_pos hp2, hA1,
      dget_dinsert_ne _ _ _ _ (str_ne_of_ne (Ne.symm hmp1)), if_neg hp1]
    exact dget_dinsert_self _ _ _

theorem c10_same_key_merge_witness :
    ∃ entry, pathsBuild (twoRouteApp ⟨"/items/<int:id>", "a", ["GET"]⟩
        ⟨"/items/<string:id>", "b", ["POST"]⟩ [("a", {}), ("b", {})] []) =
        .ok [(.str "/items/\x7bid\x7d", .dict entry)]
      ∧ dget entry (.str "parameters") = some (.list [pathParamObj "id" "string"]) := by
  obtain ⟨entry, hmain, hm2, hm1, hp2, hp1⟩ :=
    c10_same_key_merge [("a", {}), ("b", {})] [] "/items/<int:id>" "a" "GET"
      "/items/<string:id>" "b" "POST" "/items/\x7bid\x7d"
      [pathParamObj "id" "integer"] [pathParamObj "id" "string"] {} {} [] []
      (by decide) (by decide) rfl rfl rfl rfl (by decide) (by decide) rfl rfl
      (by decide) (by decide)
  exact ⟨entry, hmain, hp2 (by decide)⟩

theorem c1_schema_resolution_witness :
    swaggerBuild (oneRouteApp {} [] (schemaDecorate (.str "Missing") {})) =
      .error (.unknownDefinition (.str "Missing"))
  ∧ ∃ op, process_rule [(.str "S", .dict [(.str "type", .str "object")])]
        (schemaDecorate (.str "S") {}) = .ok op ∧
      dget op (.str "parameters") =
        some (.list [.dict [(.str "in", .str "body"), (.str "name", .str "payload"),
                            (.str "schema", ref "definitions" "S")]]) := by
  exact ⟨(c1_schema_resolution [] {} "Missing" {} []).2.1 rfl,
    ((c1_schema_resolution [(.str "S", .dict [(.str "type", .str "object")])] {} "S" {}
      []).2.2.1 rfl).2⟩

theorem headq_mem {α : Type} {l : List α} {a : α} (h : l.head? = some a) : a ∈ l := by
  cases l with
  | nil => cases h
  | cons x xs =>
    injection h with h
    rw [← h]
    exact List.mem_cons_self x xs

theorem lazyCands_fst_ne_empty (p : Char → Bool) (cs : List Char) (s : String)
    (r : List Char) (hx : (s, r) ∈ lazyCands p cs) : s ≠ "" := by
  simp only [lazyCands, List.mem_map, List.mem_range, Prod.mk.injEq] at hx
  obtain ⟨i, hi, hs, hr⟩ := hx
  have hcs : i < cs.length := lt_of_lt_of_le hi (List.takeWhile_prefix p).length_le
  intro he
  rw [← hs] at he
  have hlen := congrArg String.length he
  have h0 : (cs.take (i + 1)).length = 0 := by
    simpa [String.length] using hlen
  rw [List.length_take] at h0
  omega

theorem bracketCands_fst_ne_empty (lc rc : Char) (p : Char → Bool) (cs : List Char)
    (s : String) (r : List Char) (hx : (s, r) ∈ bracketCands lc rc p cs) : s ≠ "" := by
  cases cs with
  | nil => simp [bracketCands] at hx
  | cons c rest =>
    by_cases hc : c = lc
    · simp only [bracketCands, hc, if_pos] at hx
      rw [List.mem_filterMap] at hx
      obtain ⟨a, ha, hmap⟩ := hx
      cases h2 : a.2 with
      | nil => rw [h2] at hmap; cases hmap
      | cons c2 r3 =>
        rw [h2] at hmap
        have hmap' : (if c2 = rc then some (a.1, r3) else Option.none) = some (s, r) := hmap
        by_cases hc2 : c2 = rc
        · rw [if_pos hc2] at hmap'
          injection hmap' with hmap'
          have h1 : a.1 = s := congrArg Prod.fst hmap'
          have hm : (a.1, a.2) ∈ lazyCands p rest := by
            rw [Prod.mk.eta]
            exact ha
          have := lazyCands_fst_ne_empty p rest a.1 a.2 hm
          rwa [h1] at this
        · rw [if_neg hc2] at hmap'; cases hmap'
    · simp [bracketCands, hc] at hx

theorem optCands_some_mem (cands : List (String × List Char)) (cs : List Char)
    (o : Option String) (r : List Char) (h : (o, r) ∈ optCands cands cs)
    (a : String) (ha : o = some a) : (a, r) ∈ cands := by
  rcases List.mem_append.mp h with hmap | hsing
  · rw [List.mem_map] at hmap
    obtain ⟨x, hx, heq⟩ := hmap
    have h1 : some x.1 = o := congrArg Prod.fst heq
    have h2 : x.2 = r := congrArg Prod.snd heq
    rw [ha] at h1
    injection h1 with h1
    have hxar : x = (a, r) := by
      rw [← h1, ← h2]
    rw [← hxar]
    exact hx
  · rw [List.mem_singleton] at hsing
    have h1 : o = Option.none := congrArg Prod.fst hsing
    rw [h1] at ha
    cases ha

theorem authorParses_groups (cs : List Char) (nm em ur : Option String)
    (hx : (nm, em, ur) ∈ authorParses cs) :
    (∀ a, nm = some a → a ≠ "") ∧ (∀ a, em = some a → a ≠ "") ∧
      (∀ a, ur = some a → a ≠ "") := by
  simp only [authorParses, List.mem_flatMap] at hx
  obtain ⟨r1, hr1, nmc, hnm, r3, hr3, emc, hem, r5, hr5, urc, hur, r7, hr7, hx⟩ := hx
  have hx' : nm = nmc.1 ∧ em = emc.1 ∧ ur = urc.1 := by
    by_cases h7 : r7 = []
    · rw [if_pos h7] at hx
      rw [List.mem_singleton] at hx
      exact ⟨congrArg (fun z => z.1) hx, congrArg (fun z => z.2.1) hx,
        congrArg (fun z => z.2.2) hx⟩
    · rw [if_neg h7] at hx
      cases hx
  refine ⟨?_, ?_, ?_⟩
  · intro a ha
    have hm : (nmc.1, nmc.2) ∈ optCands (lazyCands nameClass r1) r1 := by
      rw [Prod.mk.eta]
      exact hnm
    exact lazyCands_fst_ne_empty nameClass r1 a nmc.2
      (optCands_some_mem _ _ _ _ hm a (by rw [← hx'.1]; exact ha))
  · intro a ha
    have hm : (emc.1, emc.2) ∈ optCands (bracketCands '<' '>' emailClass r3) r3 := by
      rw [Prod.mk.eta]
      exact hem
    exact bracketCands_fst_ne_empty '<' '>' emailClass r3 a emc.2
      (optCands_some_mem _ _ _ _ hm a (by rw [← hx'.2.1]; exact ha))
  · intro a ha
    have hm : (urc.1, urc.2) ∈ optCands (bracketCands '(' ')' urlClass r5) r5 := by
      rw [Prod.mk.eta]
      exact hur
    exact bracketCands_fst_ne_empty '(' ')' urlClass r5 a urc.2
      (optCands_some_mem _ _ _ _ hm a (by rw [← hx'.2.2]; exact ha))

/-- C8: contact-string parsing is the pure function matching
`name, bracketed email, parenthesised url` with all three groups
independently optional and surrounding whitespace trimmed: the
specification's example string yields the name/email/url object, the
inputs consisting of an empty bracket pair or nothing yield the empty
object, and across all inputs an absent group is never emitted as an
empty string or as `None`. -/
theorem c8_contact_parsing :
    parse_contact_string "Oak <oak@pallettown.kanto> (http://pallettown.kanto/oak)" =
      [(.str "name", .str "Oak"), (.str "email", .str "oak@pallettown.kanto"),
       (.str "url", .str "http://pallettown.kanto/oak")]
  ∧ parse_contact_string "<>" = []
  ∧ parse_contact_string "" = []
  ∧ (∀ (s : String) (k v : Obj), dget (parse_contact_string s) k = some v →
      v ≠ .str "" ∧ v ≠ .none) := by
  refine ⟨by decide, by decide, rfl, ?_⟩
  intro s k v hget
  cases hh : (authorParses s.toList).head? with
  | none =>
    rw [parse_contact_string, hh] at hget
    cases hget
  | some x =>
    obtain ⟨nm, em, ur⟩ := x
    have hg := authorParses_groups s.toList nm em ur (headq_mem hh)
    rw [parse_contact_string, hh] at hget
    have hfin : ∀ (o : Option String), (∀ a, o = some a → a ≠ "") →
        ∀ w : Obj, w = (match o with | some y => Obj.str y | Option.none => Obj.none) →
        optOmitted w = false → w ≠ Obj.str "" ∧ w ≠ Obj.none := by
      intro o ho w hw hom
      cases o with
      | none => rw [hw] at hom; cases hom
      | some a =>
        rw [hw]
        refine ⟨?_, by intro h; cases h⟩
        intro h
        injection h with h
        exact ho a rfl h
    rcases dget_add_optional_cases _ _ _ _ _ hget with ⟨hv, hom⟩ | hget2
    · rw [← hv] at hom
      exact hfin ur hg.2.2 v hv hom
    rcases dget_add_optional_cases _ _ _ _ _ hget2 with ⟨hv, hom⟩ | hget3
    · rw [← hv] at hom
      exact hfin em hg.2.1 v hv hom
    rcases dget_add_optional_cases _ _ _ _ _ hget3 with ⟨hv, hom⟩ | hget4
    · rw [← hv] at hom
      exact hfin nm hg.1 v hv hom
    cases hget4

theorem c8_contact_parsing_witness :
    Obj.str "Oak" ≠ Obj.str "" ∧ Obj.str "Oak" ≠ Obj.none := by
  exact c8_contact_parsing.2.2.2
    "Oak <oak@pallettown.kanto> (http://pallettown.kanto/oak)"
    (.str "name") (.str "Oak") (by decide)

theorem c6_validation_gate_witness :
    schemaGateRun draft4Validate []
        (.dict [(.str "type", .str "object"), (.str "required", .list [.str "spam"])])
        (fun (n : Nat) => (n + 1, Obj.none)) (.dict []) 0 =
      .error .schemaValidation := by
  exact ((c6_validation_gate draft4Validate []
    [(.str "type", .str "object"), (.str "required", .list [.str "spam"])]
    "Spam" (.dict [])
    (fun n => (n + 1, Obj.none)) (fun n => (n, Obj.none)) (.dict []) 0
    .schemaValidation).1 (by rfl)).1

end FlaskOpenapi
